import Mathlib

-- Verification development for the SmartBot trading engine.
-- Decimal arithmetic in the Python source is embedded as exact rational
-- arithmetic (ℚ); fallible operations (division by a runtime value) are
-- embedded as Option-returning functions.

namespace SmartBot

-- Price-equality / position-dust tolerance used throughout the source
-- (Decimal('0.00000001')).
def eps : ℚ := 1 / 100000000

-- ==================================================================
-- Position ledger, embedded from src/.app/position.py
-- ==================================================================

inductive PositionStatus
  | OPEN
  | CLOSED
  | HEDGED
deriving DecidableEq, Repr

-- Fields of position.py's Position that carry accounting state.  The
-- wall-clock bookkeeping fields (created_at, updated_at, duration) and the
-- buys/sells audit lists are omitted: no claim mentions them and they do
-- not feed back into any computation.
structure Position where
  status : PositionStatus
  current_size : ℚ
  entry_price : ℚ
  current_price : ℚ
  realized_pnl : ℚ
  unrealized_pnl : ℚ
  total_fees : ℚ
  max_profit : ℚ
  max_drawdown : ℚ
  orders : List String
deriving DecidableEq, Repr

-- Position._update_pnl: recompute unrealized PnL and the max-profit /
-- max-drawdown watermarks.  Note the drawdown is computed against the
-- already-updated max_profit, exactly as in the source.
def Position.update_pnl (p : Position) : Position :=
  let u := if 0 < p.current_size then p.current_size * (p.current_price - p.entry_price) else 0
  let total := p.realized_pnl + u
  let mp := if p.max_profit < total then total else p.max_profit
  let dd := mp - total
  let md := if p.max_drawdown < dd then dd else p.max_drawdown
  { p with unrealized_pnl := u, max_profit := mp, max_drawdown := md }

-- Position.close: only acts on an OPEN position; sets status CLOSED,
-- recomputes PnL (_update_pnl), folds unrealized into realized and zeroes
-- unrealized.  Closing a non-OPEN position is a no-op.
def Position.close (p : Position) : Position :=
  if p.status = PositionStatus.OPEN then
    let q := Position.update_pnl { p with status := PositionStatus.CLOSED }
    { q with realized_pnl := q.realized_pnl + q.unrealized_pnl, unrealized_pnl := 0 }
  else p

-- Position.__init__ as invoked by PositionManager.open_position: a fresh
-- OPEN position with the given initial size and entry price; the
-- constructor ends with a _update_pnl call.
def PositionManager.open_position (size price : ℚ) : Position :=
  Position.update_pnl
    { status := PositionStatus.OPEN
      current_size := size
      entry_price := price
      current_price := price
      realized_pnl := 0
      unrealized_pnl := 0
      total_fees := 0
      max_profit := 0
      max_drawdown := 0
      orders := [] }

-- Position.add_order.  The buy branch divides by the updated size with no
-- guard in the source; a zero divisor raises decimal.DivisionByZero, which
-- is embedded as `none`.  Any side other than 'buy' takes the sell branch,
-- as in the source's if/else.
def Position.add_order (p : Position) (order_id side : String) (size price fee : ℚ) :
    Option Position :=
  let p := { p with orders := p.orders ++ [order_id] }
  if side = "buy" then
    let total_cost := p.current_size * p.entry_price + size * price
    let new_size := p.current_size + size
    if new_size = 0 then none
    else
      let p := { p with current_size := new_size, entry_price := total_cost / new_size }
      some (Position.update_pnl { p with total_fees := p.total_fees + fee })
  else
    let realized_size := min size p.current_size
    let rp := realized_size * (price - p.entry_price)
    let p := { p with
                 realized_pnl := p.realized_pnl + rp
                 current_size := p.current_size - realized_size }
    let p := if p.current_size ≤ eps then p.close else p
    some (Position.update_pnl { p with total_fees := p.total_fees + fee })

-- Bot.place_order (src/.app/core/bot.py, lines 158-175): when no OPEN
-- position exists, a new one is opened sized by the order, negated for a
-- sell: `position_size = size if side == "buy" else -size`.
def Bot.open_position_for_order (side : String) (size price : ℚ) : Position :=
  PositionManager.open_position (if side = "buy" then size else -size) price

/-- C9: `Position.close` sets status to CLOSED, folds unrealizedPnL into
realizedPnL and zeroes unrealizedPnL (the second hypothesis is the
`_update_pnl` consistency invariant, re-established by every mutation of
the position in the source); closing a non-OPEN position is a no-op, and
close is idempotent. -/
theorem C9_position_close :
    (∀ p : Position, p.status = PositionStatus.OPEN →
      p.unrealized_pnl =
        (if 0 < p.current_size then p.current_size * (p.current_price - p.entry_price) else 0) →
      (Position.close p).status = PositionStatus.CLOSED ∧
      (Position.close p).realized_pnl = p.realized_pnl + p.unrealized_pnl ∧
      (Position.close p).unrealized_pnl = 0) ∧
    (∀ p : Position, p.status ≠ PositionStatus.OPEN → Position.close p = p) ∧
    (∀ p : Position, Position.close (Position.close p) = Position.close p) := by
  refine ⟨?_, ?_, ?_⟩
  · intro p hopen hconsist
    simp [Position.close, Position.update_pnl, hopen, ← hconsist]
  · intro p h
    simp [Position.close, h]
  · intro p
    by_cases h : p.status = PositionStatus.OPEN
    · simp [Position.close, Position.update_pnl, h]
    · simp [Position.close, h]

-- A concrete open position used to witness C9's hypotheses.
def c9Pos : Position :=
  { status := PositionStatus.OPEN, current_size := 2, entry_price := 100,
    current_price := 110, realized_pnl := 5, unrealized_pnl := 20, total_fees := 0,
    max_profit := 25, max_drawdown := 0, orders := [] }

/-- C9 witness: closing a concrete open position (size 2, entry 100, mark 110,
realized 5, unrealized 20) yields status CLOSED, realized PnL 5 + 20 = 25 and
unrealized PnL 0. -/
theorem C9_position_close_witness :
    c9Pos.status = PositionStatus.OPEN ∧
    (Position.close c9Pos).status = PositionStatus.CLOSED ∧
    (Position.close c9Pos).realized_pnl = 25 ∧
    (Position.close c9Pos).unrealized_pnl = 0 := by
  have h := C9_position_close.1 c9Pos rfl (by norm_num [c9Pos])
  exact ⟨rfl, h.1, h.2.1.trans (by norm_num [c9Pos]), h.2.2⟩

-- The value produced by the buy branch of add_order (when its division is
-- defined), and by the sell branch; spelled out so theorems can name them.
def buyResult (p : Position) (order_id : String) (size price fee : ℚ) : Position :=
  let p := { p with orders := p.orders ++ [order_id] }
  let total_cost := p.current_size * p.entry_price + size * price
  let new_size := p.current_size + size
  let p := { p with current_size := new_size, entry_price := total_cost / new_size }
  Position.update_pnl { p with total_fees := p.total_fees + fee }

def sellResult (p : Position) (order_id : String) (size price fee : ℚ) : Position :=
  let realized_size := min size p.current_size
  let rp := realized_size * (price - p.entry_price)
  let p := { p with
               orders := p.orders ++ [order_id]
               realized_pnl := p.realized_pnl + rp
               current_size := p.current_size - realized_size }
  let p := if p.current_size ≤ eps then p.close else p
  Position.update_pnl { p with total_fees := p.total_fees + fee }

theorem add_order_buy (p : Position) (order_id : String) (size price fee : ℚ)
    (h : p.current_size + size ≠ 0) :
    p.add_order order_id "buy" size price fee = some (buyResult p order_id size price fee) := by
  simp [Position.add_order, buyResult, h]

theorem add_order_sell (p : Position) (order_id : String) (size price fee : ℚ) :
    p.add_order order_id "sell" size price fee = some (sellResult p order_id size price fee) := by
  simp [Position.add_order, sellResult]

theorem add_order_buy_none (p : Position) (order_id : String) (size price fee : ℚ)
    (h : p.current_size + size = 0) :
    p.add_order order_id "buy" size price fee = none := by
  simp [Position.add_order, h]

-- The concrete fill sequence of the spec's "position accounting" test
-- vector: open with buy 1.0 @ 100, add buy 1.0 @ 120, sell 0.5 @ 130.
def c1Pos0 : Position := PositionManager.open_position 1 100

def c1Step1 : Option Position := c1Pos0.add_order "o1" "buy" 1 120 0

def c1Step2 : Option Position := c1Step1.bind fun q => q.add_order "o2" "sell" (1/2) 130 0

/-- C1: fill accounting of `Position.add_order`.  A buy fill of size `s` at
price `p` sets the entry price to the weighted average and adds `s` to the
size (the divisor being nonzero — the zero case raises, see C10); a sell
fill realizes `min(s, currentSize)`, adds `realizedSize × (p − entryPrice)`
to the realized PnL (plus, exactly when the sell triggers the close because
the remaining size fell to or below 1e-8, the close's own fold of the
recomputed unrealized PnL, per the close semantics of C9), decreases the
size by `realizedSize`, keeps the entry price, and closes the position iff
the remaining size is ≤ 1e-8.  The concrete conjuncts check the spec's
test vector: buy 1.0@100 then buy 1.0@120 gives entry 110 and size 2;
selling 0.5@130 then gives realized PnL 10, size 1.5, entry price 110. -/
theorem C1_position_fill_accounting :
    (∀ (p : Position) (oid : String) (s price fee : ℚ), p.current_size + s ≠ 0 →
      ∃ q, p.add_order oid "buy" s price fee = some q ∧
        q.entry_price = (p.current_size * p.entry_price + s * price) / (p.current_size + s) ∧
        q.current_size = p.current_size + s ∧
        q.realized_pnl = p.realized_pnl ∧
        q.status = p.status) ∧
    (∀ (p : Position) (oid : String) (s price fee : ℚ), p.status = PositionStatus.OPEN →
      ∃ q, p.add_order oid "sell" s price fee = some q ∧
        q.current_size = p.current_size - min s p.current_size ∧
        q.entry_price = p.entry_price ∧
        q.realized_pnl = p.realized_pnl + min s p.current_size * (price - p.entry_price)
          + (if p.current_size - min s p.current_size ≤ eps ∧
                0 < p.current_size - min s p.current_size
             then (p.current_size - min s p.current_size) * (p.current_price - p.entry_price)
             else 0) ∧
        (q.status = PositionStatus.CLOSED ↔ p.current_size - min s p.current_size ≤ eps)) ∧
    (c1Step1.map fun q => (q.entry_price, q.current_size)) = some (110, 2) ∧
    (c1Step2.map fun q => (q.realized_pnl, q.current_size, q.entry_price)) =
      some (10, 3/2, 110) := by
  refine ⟨?_, ?_, ?_, ?_⟩
  · intro p oid s price fee h
    refine ⟨buyResult p oid s price fee, add_order_buy p oid s price fee h, ?_, ?_, ?_, ?_⟩ <;>
      simp [buyResult, Position.update_pnl]
  · intro p oid s price fee hopen
    refine ⟨sellResult p oid s price fee, add_order_sell p oid s price fee, ?_, ?_, ?_, ?_⟩
    · by_cases hc : p.current_size - min s p.current_size ≤ eps <;>
        simp [sellResult, Position.close, Position.update_pnl, hopen, hc]
    · by_cases hc : p.current_size - min s p.current_size ≤ eps <;>
        simp [sellResult, Position.close, Position.update_pnl, hopen, hc]
    · by_cases hc : p.current_size - min s p.current_size ≤ eps
      · by_cases hpos : 0 < p.current_size - min s p.current_size <;>
          simp [sellResult, Position.close, Position.update_pnl, hopen, hc, hpos]
      · simp [sellResult, Position.close, Position.update_pnl, hopen, hc]
    · by_cases hc : p.current_size - min s p.current_size ≤ eps <;>
        simp [sellResult, Position.close, Position.update_pnl, hopen, hc]
  · have h0 : c1Pos0 = { status := PositionStatus.OPEN
                         current_size := 1
                         entry_price := 100
                         current_price := 100
                         realized_pnl := 0
                         unrealized_pnl := 0
                         total_fees := 0
                         max_profit := 0
                         max_drawdown := 0
                         orders := [] } := by
      simp [c1Pos0, PositionManager.open_position, Position.update_pnl]
    rw [c1Step1, h0]
    rw [add_order_buy _ _ _ _ _ (by norm_num)]
    simp [buyResult, Position.update_pnl]
    norm_num
  · have h1 : c1Step1 = some { status := PositionStatus.OPEN
                               current_size := 2
                               entry_price := 110
                               current_price := 100
                               realized_pnl := 0
                               unrealized_pnl := -20
                               total_fees := 0
                               max_profit := 0
                               max_drawdown := 20
                               orders := ["o1"] } := by
      have h0 : c1Pos0 = { status := PositionStatus.OPEN
                           current_size := 1
                           entry_price := 100
                           current_price := 100
                           realized_pnl := 0
                           unrealized_pnl := 0
                           total_fees := 0
                           max_profit := 0
                           max_drawdown := 0
                           orders := [] } := by
        simp [c1Pos0, PositionManager.open_position, Position.update_pnl]
      rw [c1Step1, h0, add_order_buy _ _ _ _ _ (by norm_num)]
      simp [buyResult, Position.update_pnl]
      norm_num
    rw [c1Step2, h1]
    simp only [Option.some_bind]
    rw [add_order_sell]
    simp [sellResult, Position.close, Position.update_pnl, eps, min_def]
    norm_num

-- The concrete starting position for the C1 witness: a fresh open position
-- of size 1 at entry price 100.
def c1Start : Position :=
  { status := PositionStatus.OPEN
    current_size := 1
    entry_price := 100
    current_price := 100
    realized_pnl := 0
    unrealized_pnl := 0
    total_fees := 0
    max_profit := 0
    max_drawdown := 0
    orders := [] }

/-- C1 witness: the buy clause applied at a concrete position (size 1, entry
100) with a buy of 1 @ 120: the divisor hypothesis holds and the conclusion
instantiates. -/
theorem C1_position_fill_accounting_witness :
    (c1Start.current_size + 1 ≠ 0) ∧
    (∃ q, c1Start.add_order "o1" "buy" 1 120 0 = some q ∧
      q.entry_price = (c1Start.current_size * c1Start.entry_price + 1 * 120) /
        (c1Start.current_size + 1) ∧
      q.current_size = c1Start.current_size + 1 ∧
      q.realized_pnl = c1Start.realized_pnl ∧
      q.status = c1Start.status) := by
  have h1 : c1Start.current_size + 1 ≠ 0 := by norm_num [c1Start]
  exact ⟨h1, C1_position_fill_accounting.1 c1Start "o1" 1 120 0 h1⟩

/-- C10: the buy branch of `Position.add_order` divides by
`currentSize + s` with no guard — it fails (raises, embedded as `none`)
exactly when `currentSize + s = 0`; and the orchestrator's `place_order`
opens sell-side positions with negative size `-orderSize`, from which a buy
fill of exactly `orderSize` reaches the zero divisor.  The concrete
conjunct exhibits the failing run: a position opened by a sell order of
size 0.01 has size -0.01, and a buy fill of 0.01 makes `add_order`
undefined. -/
theorem C10_buy_division_by_zero :
    (∀ (p : Position) (oid : String) (s price fee : ℚ),
      p.add_order oid "buy" s price fee = none ↔ p.current_size + s = 0) ∧
    (∀ size price : ℚ, (Bot.open_position_for_order "sell" size price).current_size = -size) ∧
    (Bot.open_position_for_order "sell" (1/100) 100).add_order "o1" "buy" (1/100) 95 0
      = none := by
  refine ⟨?_, ?_, ?_⟩
  · intro p oid s price fee
    by_cases h : p.current_size + s = 0 <;>
      simp [Position.add_order, h]
  · intro size price
    simp [Bot.open_position_for_order, PositionManager.open_position, Position.update_pnl]
  · refine add_order_buy_none _ _ _ _ _ ?_
    simp [Bot.open_position_for_order, PositionManager.open_position, Position.update_pnl]

-- ==================================================================
-- Order ledger, embedded from src/.app/models/order.py and
-- src/.app/execution/order_manager.py
-- ==================================================================

inductive OrderStatus
  | ACTIVE
  | FILLED
  | PARTIALLY_FILLED
  | CANCELED
  | REJECTED
deriving DecidableEq, Repr

-- Fields of models/order.py's Order relevant to the ledger claims; the
-- identifier/coin/strategy tags and wall-clock timestamps are omitted
-- (they never feed back into any computation).
structure Order where
  side : String
  price : ℚ
  size : ℚ
  status : OrderStatus
  filled_size : ℚ
  filled_price : Option ℚ
  fee : ℚ
  fee_currency : Option String
  close_reason : Option String
deriving DecidableEq, Repr

-- Order.__init__ as invoked by OrderManager.create_order: status ACTIVE,
-- nothing filled yet.
def Order.create (side : String) (price size : ℚ) : Order :=
  { side := side
    price := price
    size := size
    status := OrderStatus.ACTIVE
    filled_size := 0
    filled_price := none
    fee := 0
    fee_currency := none
    close_reason := none }

-- Order.update_fill: overwrites the execution fields and the status with
-- the given values (no clamping, no guard on the current status).
def Order.update_fill (o : Order) (filled_size filled_price fee : ℚ) (fee_currency : String)
    (status : OrderStatus) : Order :=
  { o with
      filled_size := filled_size
      filled_price := some filled_price
      fee := fee
      fee_currency := some fee_currency
      status := status }

-- Order.close: overwrites status and close_reason unconditionally.
def Order.close (o : Order) (reason : String) (status : OrderStatus) : Order :=
  { o with status := status, close_reason := some reason }

-- OrderManager.update_order_fill on the order it finds: FILLED when the
-- reported filled size reaches the requested size, else PARTIALLY_FILLED;
-- a FILLED order is immediately auto-closed with reason "filled".
def OrderManager.update_order_fill (o : Order) (filled_size filled_price fee : ℚ)
    (fee_currency : String) : Order :=
  let status := if o.size ≤ filled_size then OrderStatus.FILLED else OrderStatus.PARTIALLY_FILLED
  let o := o.update_fill filled_size filled_price fee fee_currency status
  if status = OrderStatus.FILLED then o.close "filled" OrderStatus.FILLED else o

-- One ledger operation targeting a given order: either a fill report
-- (OrderManager.update_order_fill) or an explicit close
-- (OrderManager.close_order, which forwards reason and status to
-- Order.close; the source's default status is CANCELED).
inductive LedgerOp
  | updateFill (filled_size filled_price fee : ℚ) (fee_currency : String)
  | closeOp (reason : String) (status : OrderStatus)

def applyOp (o : Order) : LedgerOp → Order
  | LedgerOp.updateFill fs fp fee ccy => OrderManager.update_order_fill o fs fp fee ccy
  | LedgerOp.closeOp reason status => o.close reason status

def runOps (o : Order) (ops : List LedgerOp) : Order := ops.foldl applyOp o

-- Status sets used by the ledger.
def isTerminalStatus (s : OrderStatus) : Prop :=
  s = OrderStatus.FILLED ∨ s = OrderStatus.CANCELED ∨ s = OrderStatus.REJECTED

instance (s : OrderStatus) : Decidable (isTerminalStatus s) := by
  unfold isTerminalStatus; infer_instance

def Order.isActiveOrder (o : Order) : Prop :=
  o.status = OrderStatus.ACTIVE ∨ o.status = OrderStatus.PARTIALLY_FILLED

instance (o : Order) : Decidable o.isActiveOrder := by
  unfold Order.isActiveOrder; infer_instance

-- OrderManager.get_active_orders: all orders in {ACTIVE, PARTIALLY_FILLED}.
def OrderManager.get_active_orders (orders : List Order) : List Order :=
  orders.filter fun o => decide o.isActiveOrder

-- Both update_order_fill and close leave the requested size untouched.
theorem applyOp_size (o : Order) (op : LedgerOp) : (applyOp o op).size = o.size := by
  cases op with
  | updateFill fs fp fee ccy =>
    by_cases hf : o.size ≤ fs <;>
      simp [applyOp, OrderManager.update_order_fill, Order.update_fill, Order.close, hf]
  | closeOp reason status => simp [applyOp, Order.close]

-- Well-formedness of a ledger operation relative to the order's requested
-- size: fill reports stay within [0, size]; explicit closes do not claim
-- the FILLED status (the source's callers close with CANCELED/REJECTED;
-- only update_order_fill itself closes with FILLED).
def wfOp (size : ℚ) : LedgerOp → Prop
  | LedgerOp.updateFill fs _ _ _ => 0 ≤ fs ∧ fs ≤ size
  | LedgerOp.closeOp _ status => status ≠ OrderStatus.FILLED

-- The ledger invariant of spec §8: fill bounds plus FILLED-implies-full.
def orderInv (o : Order) : Prop :=
  0 ≤ o.filled_size ∧ o.filled_size ≤ o.size ∧
    (o.status = OrderStatus.FILLED → o.size ≤ o.filled_size)

theorem orderInv_applyOp (o : Order) (op : LedgerOp) (hwf : wfOp o.size op)
    (h : orderInv o) : orderInv (applyOp o op) := by
  cases op with
  | updateFill fs fp fee ccy =>
    obtain ⟨h0, h1⟩ := hwf
    by_cases hf : o.size ≤ fs <;>
      simp [applyOp, OrderManager.update_order_fill, Order.update_fill, Order.close,
        orderInv, hf, h0, h1]
  | closeOp reason status =>
    obtain ⟨h0, h1, _⟩ := h
    simp only [applyOp, Order.close]
    exact ⟨h0, h1, fun hst => absurd hst hwf⟩

theorem orderInv_runOps (o : Order) (ops : List LedgerOp) (h : orderInv o)
    (hwf : ∀ op ∈ ops, wfOp o.size op) : orderInv (runOps o ops) := by
  induction ops generalizing o with
  | nil => exact h
  | cons op rest ih =>
    have hsz := applyOp_size o op
    refine ih (applyOp o op) (orderInv_applyOp o op (hwf op (by simp)) h) ?_
    intro op' hmem
    rw [hsz]
    exact hwf op' (List.mem_cons_of_mem _ hmem)

-- A run violating the claimed invariant: an order of size 1 receiving a
-- fill report of 2 (nothing in the source clamps the reported fill).
def c3Run : Order :=
  runOps (Order.create "buy" 100 1) [LedgerOp.updateFill 2 100 0 "USDT"]

/-- C3 counterexample: after createOrder(size 1) followed by
updateOrderFill(filledSize 2), the ledger order has filled_size = 2 > size
= 1 — `0 ≤ filled_size ≤ size` fails, because update_fill overwrites
filled_size with whatever is reported, with no clamping. -/
theorem C3_fill_bounds_counterexample :
    ¬ (0 ≤ c3Run.filled_size ∧ c3Run.filled_size ≤ c3Run.size) := by
  have h2 : c3Run.filled_size = 2 ∧ c3Run.size = 1 := by
    constructor <;>
      simp [c3Run, runOps, applyOp, OrderManager.update_order_fill, Order.update_fill,
        Order.close, Order.create]
  intro hcl
  rw [h2.1, h2.2] at hcl
  exact absurd hcl.2 (by norm_num)

/-- C3 amended: provided the order is created with size ≥ 0, every
updateOrderFill call reports 0 ≤ filledSize ≤ size, and no explicit
closeOrder call passes status FILLED (the source's callers pass the default
CANCELED or REJECTED; only updateOrderFill itself closes FILLED), then
after every sequence of ledger operations 0 ≤ filled_size ≤ size holds and
status FILLED implies filled_size ≥ size; moreover updateOrderFill sets
status FILLED exactly when filledSize ≥ size and PARTIALLY_FILLED
otherwise. -/
theorem C3_fill_bounds_amended :
    (∀ (side : String) (price size : ℚ) (ops : List LedgerOp), 0 ≤ size →
      (∀ op ∈ ops, wfOp size op) →
      (0 ≤ (runOps (Order.create side price size) ops).filled_size ∧
       (runOps (Order.create side price size) ops).filled_size ≤
         (runOps (Order.create side price size) ops).size ∧
       ((runOps (Order.create side price size) ops).status = OrderStatus.FILLED →
         (runOps (Order.create side price size) ops).size ≤
           (runOps (Order.create side price size) ops).filled_size))) ∧
    (∀ (o : Order) (fs fp fee : ℚ) (ccy : String),
      (OrderManager.update_order_fill o fs fp fee ccy).status =
        (if o.size ≤ fs then OrderStatus.FILLED else OrderStatus.PARTIALLY_FILLED)) := by
  constructor
  · intro side price size ops hsize hwf
    refine orderInv_runOps (Order.create side price size) ops ?_ ?_
    · exact ⟨le_refl 0, by simpa [Order.create] using hsize, by simp [Order.create]⟩
    · simpa [Order.create] using hwf
  · intro o fs fp fee ccy
    by_cases hf : o.size ≤ fs <;>
      simp [OrderManager.update_order_fill, Order.update_fill, Order.close, hf]

/-- C3 witness: a concrete well-formed run — size 1, a partial fill of 0.4
then a full fill of 1 — instantiating the amended theorem's hypotheses. -/
theorem C3_fill_bounds_amended_witness :
    ((0 : ℚ) ≤ 1) ∧
    (∀ op ∈ [LedgerOp.updateFill (2/5) 100 0 "USDT", LedgerOp.updateFill 1 100 0 "USDT"],
      wfOp 1 op) ∧
    (0 ≤ (runOps (Order.create "buy" 100 1)
        [LedgerOp.updateFill (2/5) 100 0 "USDT", LedgerOp.updateFill 1 100 0 "USDT"]).filled_size ∧
     (runOps (Order.create "buy" 100 1)
        [LedgerOp.updateFill (2/5) 100 0 "USDT", LedgerOp.updateFill 1 100 0 "USDT"]).filled_size ≤
       (runOps (Order.create "buy" 100 1)
        [LedgerOp.updateFill (2/5) 100 0 "USDT", LedgerOp.updateFill 1 100 0 "USDT"]).size) := by
  have hwf : ∀ op ∈ [LedgerOp.updateFill (2/5 : ℚ) 100 0 "USDT",
      LedgerOp.updateFill 1 100 0 "USDT"], wfOp 1 op := by
    intro op hmem
    simp only [List.mem_cons, List.mem_singleton] at hmem
    rcases hmem with h | h | h
    · rw [h]; constructor <;> norm_num
    · rw [h]; constructor <;> norm_num
    · cases h
  have h := (C3_fill_bounds_amended.1 "buy" 100 1
      [LedgerOp.updateFill (2/5) 100 0 "USDT", LedgerOp.updateFill 1 100 0 "USDT"]
      (by norm_num) hwf)
  exact ⟨by norm_num, hwf, h.1, h.2.1⟩

-- A terminal (CANCELED) order that a later fill report re-opens to FILLED.
def c8Run : Order :=
  runOps (Order.create "buy" 100 1) [LedgerOp.closeOp "manual_cancel" OrderStatus.CANCELED]

/-- C8 counterexample: an order closed with status CANCELED (terminal per
the claim) changes status to FILLED when a subsequent updateOrderFill
reports a full fill — neither update_fill nor close guards on the current
status. -/
theorem C8_terminal_counterexample :
    c8Run.status = OrderStatus.CANCELED ∧
    (applyOp c8Run (LedgerOp.updateFill 1 100 0 "USDT")).status = OrderStatus.FILLED := by
  constructor
  · simp [c8Run, runOps, applyOp, Order.close, Order.create]
  · have hsz : c8Run.size = 1 ∧ c8Run.status = OrderStatus.CANCELED := by
      constructor <;> simp [c8Run, runOps, applyOp, Order.close, Order.create]
    simp [applyOp, OrderManager.update_order_fill, Order.update_fill, Order.close, hsz.1]

/-- C8 amended: FILLED, CANCELED and REJECTED are not enforced as terminal
by the ledger operations themselves — updateOrderFill overwrites the status
with FILLED/PARTIALLY_FILLED by the fill comparison and closeOrder
overwrites it with whatever status it is given, regardless of the current
status; terminal orders are, however, excluded from getActiveOrders, so the
orchestrator's cancel phase (which closes only active orders) never touches
them. -/
theorem C8_terminal_amended :
    ∀ (o : Order) (fs fp fee : ℚ) (ccy reason : String) (st : OrderStatus),
      isTerminalStatus o.status →
      ((OrderManager.update_order_fill o fs fp fee ccy).status =
        (if o.size ≤ fs then OrderStatus.FILLED else OrderStatus.PARTIALLY_FILLED)) ∧
      ((o.close reason st).status = st) ∧
      ¬ o.isActiveOrder ∧
      (∀ orders : List Order, o ∉ OrderManager.get_active_orders orders) := by
  intro o fs fp fee ccy reason st hterm
  have hnact : ¬ o.isActiveOrder := by
    rcases hterm with h | h | h <;> rw [Order.isActiveOrder, h] <;> simp
  refine ⟨?_, by simp [Order.close], hnact, ?_⟩
  · by_cases hf : o.size ≤ fs <;>
      simp [OrderManager.update_order_fill, Order.update_fill, Order.close, hf]
  · intro orders hmem
    rw [OrderManager.get_active_orders, List.mem_filter] at hmem
    exact hnact (by simpa using hmem.2)

/-- C8 witness: the amended theorem applied to the concrete CANCELED order
of the counterexample run. -/
theorem C8_terminal_amended_witness :
    isTerminalStatus c8Run.status ∧
    ((c8Run.close "again" OrderStatus.REJECTED).status = OrderStatus.REJECTED) ∧
    ¬ c8Run.isActiveOrder := by
  have hterm : isTerminalStatus c8Run.status := by
    rw [show c8Run.status = OrderStatus.CANCELED by
      simp [c8Run, runOps, applyOp, Order.close, Order.create]]
    right; left; rfl
  have h := C8_terminal_amended c8Run 1 100 0 "USDT" "again" OrderStatus.REJECTED hterm
  exact ⟨hterm, h.2.1, h.2.2.1⟩

-- ==================================================================
-- Grid strategy, embedded from src/backend/app/strategies/grid_strategy.py
-- ==================================================================

-- Banker's rounding (ROUND_HALF_EVEN), the default rounding mode of
-- Python's decimal context, as used by Decimal.quantize.
def roundHalfEven (q : ℚ) : ℤ :=
  let f := ⌊q⌋
  let r := q - (f : ℚ)
  if r < 1/2 then f
  else if 1/2 < r then f + 1
  else if f % 2 = 0 then f else f + 1

-- Decimal.quantize(Decimal("0.00000000")): snap to 8 decimal places.
def quantize8 (q : ℚ) : ℚ := (roundHalfEven (q * 100000000) : ℚ) / 100000000

theorem roundHalfEven_intCast (n : ℤ) : roundHalfEven (n : ℚ) = n := by
  simp [roundHalfEven]

theorem quantize8_int (n : ℤ) : quantize8 (n : ℚ) = n := by
  rw [quantize8]
  have h : ((n : ℚ)) * 100000000 = ((n * 100000000 : ℤ) : ℚ) := by push_cast; ring
  rw [h, roundHalfEven_intCast]
  push_cast
  field_simp

theorem quantize8_ofInt (x : ℚ) (n : ℤ) (h : x = (n : ℚ)) : quantize8 x = x := by
  rw [h, quantize8_int]

-- GridStrategy.validate_parameters: raises StrategyError (embedded as
-- Except.error with the source's message) on invalid bounds, level count
-- or order size; the checks happen in the source's order.
def GridStrategy.validate_parameters (lower_bound upper_bound : ℚ) (grid_levels : ℕ)
    (order_size : ℚ) : Except String Unit :=
  if upper_bound ≤ lower_bound then Except.error "Lower bound must be less than upper bound"
  else if grid_levels < 3 then Except.error "At least 3 grid levels required"
  else if order_size ≤ 0 then Except.error "Order size must be positive"
  else Except.ok ()

-- GridStrategy.generate_grid, arithmetic-spacing branch: `levels` prices
-- stepping by (upper - lower) / (levels - 1), each quantized to 8 decimal
-- places.  (The geometric branch raises upper/lower to a fractional
-- Decimal power and is outside claim C6's scope.)
def GridStrategy.generate_grid (lower_bound upper_bound : ℚ) (grid_levels : ℕ) : List ℚ :=
  let step := (upper_bound - lower_bound) / ((grid_levels : ℚ) - 1)
  (List.range grid_levels).map fun i : ℕ => quantize8 (lower_bound + step * (i : ℚ))

theorem generate_grid_getElem (lower upper : ℚ) (levels i : ℕ) (h : i < levels) :
    (GridStrategy.generate_grid lower upper levels)[i]? =
      some (quantize8 (lower + (upper - lower) / ((levels : ℚ) - 1) * i)) := by
  simp only [GridStrategy.generate_grid, List.getElem?_map]
  rw [show (List.range levels)[i]? = some i from by simp [List.getElem?_range, h]]
  rfl

/-- C6: for valid arithmetic-grid parameters, validate_parameters accepts
exactly when lowerBound < upperBound, levels ≥ 3 and orderSize > 0 (and
fails with the strategy error otherwise); generate_grid produces exactly
`levels` prices, the i-th being the quantization of
lowerBound + i×(upperBound − lowerBound)/(levels − 1), so the ladder runs
from lowerBound to upperBound inclusive; every price is an integer
multiple of 10^-8; and generateGrid(90, 110, 5) = [90, 95, 100, 105, 110]. -/
theorem C6_generate_grid :
    (∀ (lower upper : ℚ) (levels : ℕ) (osize : ℚ),
      GridStrategy.validate_parameters lower upper levels osize = Except.ok () ↔
        (lower < upper ∧ 3 ≤ levels ∧ 0 < osize)) ∧
    (∀ (lower upper : ℚ) (levels : ℕ), lower < upper → 3 ≤ levels →
      (GridStrategy.generate_grid lower upper levels).length = levels ∧
      (∀ i : ℕ, i < levels →
        (GridStrategy.generate_grid lower upper levels)[i]? =
          some (quantize8 (lower + (upper - lower) / ((levels : ℚ) - 1) * i))) ∧
      (GridStrategy.generate_grid lower upper levels)[0]? = some (quantize8 lower) ∧
      (GridStrategy.generate_grid lower upper levels)[levels - 1]? =
        some (quantize8 upper)) ∧
    (∀ (lower upper : ℚ) (levels : ℕ) (p : ℚ),
      p ∈ GridStrategy.generate_grid lower upper levels →
      ∃ n : ℤ, p = (n : ℚ) / 100000000) ∧
    GridStrategy.generate_grid 90 110 5 = [90, 95, 100, 105, 110] := by
  refine ⟨?_, ?_, ?_, ?_⟩
  · intro lower upper levels osize
    unfold GridStrategy.validate_parameters
    split_ifs with h1 h2 h3 <;> simp_all
  · intro lower upper levels hlt hlev
    have hL : ((levels : ℚ) - 1) ≠ 0 := by
      have h3 : (3 : ℚ) ≤ (levels : ℚ) := by exact_mod_cast hlev
      intro hz
      nlinarith
    refine ⟨by simp only [GridStrategy.generate_grid, List.length_map, List.length_range],
      ?_, ?_, ?_⟩
    · intro i hi
      exact generate_grid_getElem lower upper levels i hi
    · rw [generate_grid_getElem lower upper levels 0 (by omega)]
      norm_num
    · rw [generate_grid_getElem lower upper levels (levels - 1) (by omega)]
      have hcast : (((levels - 1 : ℕ)) : ℚ) = (levels : ℚ) - 1 := by
        push_cast [Nat.cast_sub (by omega : 1 ≤ levels)]
        ring
      rw [hcast, div_mul_cancel₀ _ hL]
      norm_num
  · intro lower upper levels p hp
    unfold GridStrategy.generate_grid at hp
    simp only [List.mem_map] at hp
    obtain ⟨i, _, hq⟩ := hp
    exact ⟨roundHalfEven ((lower + (upper - lower) / ((levels : ℚ) - 1) * i) * 100000000),
      by rw [← hq, quantize8]⟩
  · simp only [GridStrategy.generate_grid, show List.range 5 = [0, 1, 2, 3, 4] from rfl,
      List.map]
    norm_num
    refine ⟨?_, ?_, ?_, ?_, ?_⟩
    · exact quantize8_ofInt _ 90 (by norm_num)
    · exact quantize8_ofInt _ 95 (by norm_num)
    · exact quantize8_ofInt _ 100 (by norm_num)
    · exact quantize8_ofInt _ 105 (by norm_num)
    · exact quantize8_ofInt _ 110 (by norm_num)

/-- C6 witness: the grid theorem applied at the spec's concrete parameters
(lower 90, upper 110, 5 levels, order size 0.01). -/
theorem C6_generate_grid_witness :
    ((90 : ℚ) < 110) ∧ (3 ≤ 5) ∧
    (GridStrategy.generate_grid 90 110 5).length = 5 ∧
    (GridStrategy.generate_grid 90 110 5)[0]? = some (quantize8 90) ∧
    (GridStrategy.generate_grid 90 110 5)[4]? = some (quantize8 110) := by
  have h := C6_generate_grid.2.1 90 110 5 (by norm_num) (by norm_num)
  exact ⟨by norm_num, by norm_num, h.1, h.2.2.1, h.2.2.2⟩

-- ==================================================================
-- Backtest matching engine, embedded from src/backend/backtest/exchange.py
-- ==================================================================

-- A pending backtest order as stored in BacktestExchange.orders (instId
-- and timestamps omitted: constant tags never read by the matching rule).
structure BTOrder where
  ordId : String
  side : String
  price : ℚ
  size : ℚ
  filled : ℚ
  state : String
deriving DecidableEq, Repr

-- The fill record emitted for a matched order (feeCcy is the constant
-- "USDT" in the source).
structure Fill where
  ordId : String
  filled_size : ℚ
  fill_price : ℚ
  fee : ℚ
deriving DecidableEq, Repr

-- BacktestExchange.place_limit_order: registers a fresh "open" order with
-- nothing filled.
def BacktestExchange.place_limit_order (ordId side : String) (price size : ℚ) : BTOrder :=
  { ordId := ordId, side := side, price := price, size := size, filled := 0, state := "open" }

-- The body of BacktestExchange.match_orders_with_candle for one order:
-- skip non-open orders and orders with no remaining size; fill the entire
-- remaining size at the slippage-adjusted limit price when the candle
-- range [low, high] contains the limit price (inclusive).
def BacktestExchange.match_one (fee_rate slippage low high : ℚ) (o : BTOrder) :
    BTOrder × Option Fill :=
  if o.state ≠ "open" then (o, none)
  else
    let size := o.size - o.filled
    if size ≤ 0 then (o, none)
    else if low ≤ o.price ∧ o.price ≤ high then
      let fill_price := o.price * (1 + (if o.side = "sell" then slippage else -slippage))
      let fee := |fill_price * size| * fee_rate
      ({ o with filled := o.filled + size, state := "filled" },
        some { ordId := o.ordId, filled_size := size, fill_price := fill_price, fee := fee })
    else (o, none)

-- The full pass over the order book, accumulating the fills list in order.
def BacktestExchange.match_orders_with_candle (fee_rate slippage low high : ℚ) :
    List BTOrder → List BTOrder × List Fill
  | [] => ([], [])
  | o :: rest =>
    let r := BacktestExchange.match_one fee_rate slippage low high o
    let rr := BacktestExchange.match_orders_with_candle fee_rate slippage low high rest
    (r.1 :: rr.1, match r.2 with | some f => f :: rr.2 | none => rr.2)

-- A concrete limit buy at 100 for the claim's two candle scenarios, with
-- the source's default fee rate 0.0005 and zero slippage.
def c5Order : BTOrder := BacktestExchange.place_limit_order "bt-1" "buy" 100 1

/-- C5: in the backtest matching engine, an open order with positive
remaining size fills iff its limit price lies within [low, high] inclusive;
on fill the entire remaining size fills at price×(1 − slippage) for buys
and price×(1 + slippage) for sells, with fee = feeRate × |fillPrice ×
filledSize|, and the order's state becomes "filled"; otherwise the order is
untouched.  The whole-book pass treats every order independently.  The
concrete conjuncts check the claim's vectors: a limit buy at 100 fills
fully against candle [95, 105] and does not fill against [101, 110]. -/
theorem C5_backtest_matching :
    (∀ (fee_rate slippage low high : ℚ) (o : BTOrder),
      o.state = "open" → 0 < o.size - o.filled →
      ((BacktestExchange.match_one fee_rate slippage low high o).2.isSome ↔
        (low ≤ o.price ∧ o.price ≤ high)) ∧
      (low ≤ o.price → o.price ≤ high →
        BacktestExchange.match_one fee_rate slippage low high o =
          ({ o with filled := o.size, state := "filled" },
            some { ordId := o.ordId
                   filled_size := o.size - o.filled
                   fill_price := o.price * (1 + (if o.side = "sell" then slippage else -slippage))
                   fee := fee_rate *
                     |o.price * (1 + (if o.side = "sell" then slippage else -slippage)) *
                       (o.size - o.filled)| })) ∧
      (¬ (low ≤ o.price ∧ o.price ≤ high) →
        BacktestExchange.match_one fee_rate slippage low high o = (o, none))) ∧
    (∀ (fee_rate slippage low high : ℚ) (orders : List BTOrder),
      (BacktestExchange.match_orders_with_candle fee_rate slippage low high orders).1 =
        orders.map (fun o => (BacktestExchange.match_one fee_rate slippage low high o).1) ∧
      (BacktestExchange.match_orders_with_candle fee_rate slippage low high orders).2 =
        orders.filterMap (fun o => (BacktestExchange.match_one fee_rate slippage low high o).2)) ∧
    (BacktestExchange.match_one (1/2000) 0 95 105 c5Order =
      ({ c5Order with filled := 1, state := "filled" },
        some { ordId := "bt-1", filled_size := 1, fill_price := 100, fee := 1/20 })) ∧
    (BacktestExchange.match_one (1/2000) 0 101 110 c5Order = (c5Order, none)) := by
  refine ⟨?_, ?_, ?_, ?_⟩
  · intro fee_rate slippage low high o hopen hrem
    have hno : ¬ (o.state ≠ "open") := by simp [hopen]
    have hsz : ¬ (o.size - o.filled ≤ 0) := not_le.mpr hrem
    refine ⟨?_, ?_, ?_⟩
    · by_cases hin : low ≤ o.price ∧ o.price ≤ high <;>
        simp [BacktestExchange.match_one, hno, hsz, hin]
    · intro h1 h2
      simp only [BacktestExchange.match_one, hno, if_false, ite_not]
      rw [if_neg hsz, if_pos (show low ≤ o.price ∧ o.price ≤ high from ⟨h1, h2⟩)]
      simp only [Prod.mk.injEq, Option.some.injEq, BTOrder.mk.injEq, Fill.mk.injEq,
        true_and, and_true]
      exact ⟨by ring, by rw [mul_comm]⟩
    · intro hin
      simp [BacktestExchange.match_one, hno, hsz, hin]
  · intro fee_rate slippage low high orders
    induction orders with
    | nil => simp [BacktestExchange.match_orders_with_candle]
    | cons o rest ih =>
      simp only [BacktestExchange.match_orders_with_candle, List.map, List.filterMap]
      refine ⟨by rw [ih.1], ?_⟩
      cases hm : (BacktestExchange.match_one fee_rate slippage low high o).2 <;>
        simp [hm, ih.2]
  · simp [BacktestExchange.match_one, c5Order, BacktestExchange.place_limit_order]
    norm_num
  · simp [BacktestExchange.match_one, c5Order, BacktestExchange.place_limit_order]
    norm_num

/-- C5 witness: the per-order clause applied to the concrete limit buy at
100 (open, remaining size 1) against the candle [95, 105]. -/
theorem C5_backtest_matching_witness :
    c5Order.state = "open" ∧ (0 : ℚ) < c5Order.size - c5Order.filled ∧
    ((BacktestExchange.match_one (1/2000) 0 95 105 c5Order).2.isSome ↔
      ((95 : ℚ) ≤ c5Order.price ∧ c5Order.price ≤ 105)) := by
  have h := (C5_backtest_matching.1 (1/2000) 0 95 105 c5Order rfl
    (by norm_num [c5Order, BacktestExchange.place_limit_order])).1
  exact ⟨rfl, by norm_num [c5Order, BacktestExchange.place_limit_order], h⟩

-- ==================================================================
-- Request signing, embedded from src/.app/core/exchange.py (_request)
-- and src/.app/exchange_v5.py (request/_sign)
-- ==================================================================

-- str.upper() embedded over the string's character list (identical to
-- Python's upper() on the ASCII method names used by the source; the
-- list-based form keeps it kernel-computable).
def strUpper (s : String) : String := String.mk (s.data.map Char.toUpper)

-- Payloads are flat string-to-string dicts in every call the source
-- makes; a dict is embedded as its insertion-ordered key/value list, and
-- `None` as Option.none.  Python truthiness: None and {} are falsy.
def payloadTruthy : Option (List (String × String)) → Bool
  | some (_ :: _) => true
  | _ => false

-- sorted(payload.items()): ascending insertion sort on the key (keys are
-- unique in a dict, so tuple comparison on (key, value) is key comparison).
def insertPair (p : String × String) : List (String × String) → List (String × String)
  | [] => [p]
  | q :: rest => if p.1 ≤ q.1 then p :: q :: rest else q :: insertPair p rest

def sortPairs : List (String × String) → List (String × String)
  | [] => []
  | p :: rest => insertPair p (sortPairs rest)

-- "&".join(f"{k}={v}" for k, v in sorted(payload.items()))
def encodedParams (payload : List (String × String)) : String :=
  String.intercalate "&" ((sortPairs payload).map fun kv => kv.1 ++ "=" ++ kv.2)

-- json.dumps(payload, separators=(",", ":")): compact JSON of a flat
-- string dict, keys in insertion order.
def jsonCompact (payload : List (String × String)) : String :=
  "\x7b" ++ String.intercalate ","
    (payload.map fun kv => "\"" ++ kv.1 ++ "\":\"" ++ kv.2 ++ "\"") ++ "\x7d"

-- core/exchange.py lines 329-340: GET with a truthy payload signs
-- path?sortedQuery with empty body; anything else signs the plain path
-- with the compact JSON body (empty when the payload is falsy).
def OkxCore.sign_path (method path : String) (payload : Option (List (String × String))) :
    String :=
  if strUpper method = "GET" ∧ payloadTruthy payload = true then
    path ++ "?" ++ encodedParams (payload.getD [])
  else path

def OkxCore.body (method : String) (payload : Option (List (String × String))) : String :=
  if strUpper method = "GET" ∧ payloadTruthy payload = true then ""
  else if payloadTruthy payload = true then jsonCompact (payload.getD []) else ""

def OkxCore.sign_preimage (timestamp method path : String)
    (payload : Option (List (String × String))) : String :=
  timestamp ++ strUpper method ++ OkxCore.sign_path method path payload ++
    OkxCore.body method payload

-- core/exchange.py lines 345-352: the request headers; the signature is
-- the HMAC-SHA256/base64 of the pre-image under the secret key.  The HMAC
-- primitive itself is an external library call, abstracted as a function
-- parameter.
def OkxCore.headers (hmac_sha256_b64 : String → String → String)
    (api_key secret_key passphrase timestamp method path : String)
    (payload : Option (List (String × String))) (demo : Bool) : List (String × String) :=
  [("OK-ACCESS-KEY", api_key),
   ("OK-ACCESS-SIGN", hmac_sha256_b64 secret_key
      (OkxCore.sign_preimage timestamp method path payload)),
   ("OK-ACCESS-TIMESTAMP", timestamp),
   ("OK-ACCESS-PASSPHRASE", passphrase),
   ("Content-Type", "application/json")] ++
    (if demo then [("x-simulated-trading", "1")] else [])

-- exchange_v5.py lines 256-266 with _sign (line 446-450): the body is
-- empty for GET or a missing payload, and the signed message is
-- timestamp + METHOD + path + body — the GET query string is sent as URL
-- params but never enters the signature.
def OkxV5.sign_preimage (timestamp method path : String)
    (payload : Option (List (String × String))) : String :=
  let body := if strUpper method = "GET" ∨ payload = none then ""
    else jsonCompact (payload.getD [])
  timestamp ++ strUpper method ++ path ++ body

-- The pre-image as the spec words it (§4.1): timestamp + METHOD +
-- signPath + body, signPath being path?sortedQuery for a GET with
-- parameters and the plain path otherwise, body being the compact JSON of
-- the payload for a non-GET with a payload and "" otherwise.
def Spec.sign_preimage (timestamp method path : String)
    (payload : Option (List (String × String))) : String :=
  let signPath := if strUpper method = "GET" ∧ payloadTruthy payload = true then
    path ++ "?" ++ encodedParams (payload.getD []) else path
  let body := if ¬ strUpper method = "GET" ∧ payloadTruthy payload = true then
    jsonCompact (payload.getD []) else ""
  timestamp ++ strUpper method ++ signPath ++ body

theorem insertPair_perm (p : String × String) (l : List (String × String)) :
    List.Perm (insertPair p l) (p :: l) := by
  induction l with
  | nil => rfl
  | cons q rest ih =>
    by_cases h : p.1 ≤ q.1
    · simp [insertPair, h]
    · simp only [insertPair, if_neg h]
      exact ((ih.cons q).trans (List.Perm.swap p q rest))

theorem sortPairs_perm (l : List (String × String)) : List.Perm (sortPairs l) l := by
  induction l with
  | nil => rfl
  | cons p rest ih => exact (insertPair_perm p (sortPairs rest)).trans (ih.cons p)

theorem insertPair_sorted (p : String × String) (l : List (String × String))
    (h : List.Sorted (fun a b : String × String => a.1 ≤ b.1) l) :
    List.Sorted (fun a b : String × String => a.1 ≤ b.1) (insertPair p l) := by
  induction l with
  | nil => simp [insertPair]
  | cons q rest ih =>
    rw [List.sorted_cons] at h
    by_cases hpq : p.1 ≤ q.1
    · rw [insertPair, if_pos hpq, List.sorted_cons]
      refine ⟨?_, List.sorted_cons.mpr h⟩
      intro b hb
      rcases List.mem_cons.mp hb with hb | hb
      · rw [hb]; exact hpq
      · exact le_trans hpq (h.1 b hb)
    · rw [insertPair, if_neg hpq, List.sorted_cons]
      refine ⟨?_, ih h.2⟩
      intro b hb
      have hb2 : b ∈ p :: rest := (insertPair_perm p rest).mem_iff.mp hb
      rcases List.mem_cons.mp hb2 with hbe | hbr
      · rw [hbe]; exact le_of_lt (lt_of_not_le hpq)
      · exact h.1 b hbr

theorem sortPairs_sorted (l : List (String × String)) :
    List.Sorted (fun a b : String × String => a.1 ≤ b.1) (sortPairs l) := by
  induction l with
  | nil => simp [sortPairs]
  | cons p rest ih => exact insertPair_sorted p (sortPairs rest) ih

-- The core client's pre-image is exactly the spec's pre-image.
theorem core_sign_preimage_eq_spec (timestamp method path : String)
    (payload : Option (List (String × String))) :
    OkxCore.sign_preimage timestamp method path payload =
      Spec.sign_preimage timestamp method path payload := by
  by_cases hg : strUpper method = "GET" <;>
    by_cases ht : payloadTruthy payload = true <;>
      simp [OkxCore.sign_preimage, OkxCore.sign_path, OkxCore.body, Spec.sign_preimage,
        hg, ht]

/-- C2: the core client's OK-ACCESS-SIGN header is the HMAC-SHA256/base64
(under the secret key) of exactly the claimed pre-image — timestamp +
METHOD + signPath + body with the GET query string sorted by key — and
sortPairs really sorts by key (sorted ∧ permutation).  The v5 client's
`request`, however, signs timestamp + METHOD + path with the GET query
string omitted: on the failing input GET /api/v5/market/ticker with
payload {"instId": "BTC-USDT-SWAP"} its pre-image lacks
"?instId=BTC-USDT-SWAP" and differs from the claimed pre-image — the code
bug of this claim. -/
theorem C2_sign_preimage_bug :
    (∀ (hmac_sha256_b64 : String → String → String)
       (api_key secret_key passphrase timestamp method path : String)
       (payload : Option (List (String × String))) (demo : Bool),
      (OkxCore.headers hmac_sha256_b64 api_key secret_key passphrase timestamp method path
          payload demo).lookup "OK-ACCESS-SIGN" =
        some (hmac_sha256_b64 secret_key
          (Spec.sign_preimage timestamp method path payload))) ∧
    (∀ l : List (String × String),
      List.Sorted (fun a b : String × String => a.1 ≤ b.1) (sortPairs l) ∧
      List.Perm (sortPairs l) l) ∧
    (∀ (timestamp path : String) (payload : Option (List (String × String))),
      OkxV5.sign_preimage timestamp "GET" path payload = timestamp ++ "GET" ++ path) ∧
    (OkxV5.sign_preimage "TS" "GET" "/api/v5/market/ticker"
        (some [("instId", "BTC-USDT-SWAP")]) =
      "TSGET/api/v5/market/ticker") ∧
    (Spec.sign_preimage "TS" "GET" "/api/v5/market/ticker"
        (some [("instId", "BTC-USDT-SWAP")]) =
      "TSGET/api/v5/market/ticker?instId=BTC-USDT-SWAP") ∧
    (OkxV5.sign_preimage "TS" "GET" "/api/v5/market/ticker"
        (some [("instId", "BTC-USDT-SWAP")]) ≠
      Spec.sign_preimage "TS" "GET" "/api/v5/market/ticker"
        (some [("instId", "BTC-USDT-SWAP")])) := by
  refine ⟨?_, ?_, ?_, ?_, ?_, ?_⟩
  · intro hmac api secret pass ts method path payload demo
    rw [← core_sign_preimage_eq_spec]
    simp [OkxCore.headers, List.lookup]
  · intro l
    exact ⟨sortPairs_sorted l, sortPairs_perm l⟩
  · intro ts path payload
    have hg : strUpper "GET" = "GET" := by decide
    simp [OkxV5.sign_preimage, hg]
  · decide
  · decide
  · decide

-- ==================================================================
-- Retry behavior, embedded from src/.app/exchange_v5.py (request,
-- lines 279-310) and src/.app/core/exchange.py (_request, lines 356-377)
-- ==================================================================

-- One observable outcome of a single HTTP attempt: a response (status,
-- optional integer Retry-After header, business code, data), a network
-- error (TimeoutError / aiohttp.ClientError), or an unexpected exception
-- inside the handler.
inductive RespEvent
  | http (status : ℕ) (retry_after : Option ℕ) (code : String) (data : List String)
  | netError
  | exn
deriving DecidableEq, Repr

def retryable (status : ℕ) : Prop := status = 429 ∨ status = 502 ∨ status = 503

instance (s : ℕ) : Decidable (retryable s) := by
  unfold retryable; infer_instance

-- exchange_v5.request's attempt loop (`for attempt in range(1, 4)`),
-- consuming one response event per attempt; the result pairs the
-- (data, ok) return value with the list of back-off delays slept, in
-- order.  A retryable status sleeps Retry-After when present, else
-- 2^attempt; a network error sleeps 2^attempt; a non-retryable response
-- returns (data, status == 200 and code == "0"); an unexpected exception
-- returns ([], false); falling off the loop returns ([], false).
def OkxV5.request_go (attempt : ℕ) : List RespEvent → (List String × Bool) × List ℕ
  | [] => (([], false), [])
  | RespEvent.http status retry_after code data :: rest =>
    if 3 < attempt then (([], false), [])
    else if retryable status then
      let r := OkxV5.request_go (attempt + 1) rest
      (r.1, (retry_after.getD (2 ^ attempt)) :: r.2)
    else ((data, status == 200 && code == "0"), [])
  | RespEvent.netError :: rest =>
    if 3 < attempt then (([], false), [])
    else
      let r := OkxV5.request_go (attempt + 1) rest
      (r.1, (2 ^ attempt) :: r.2)
  | RespEvent.exn :: _ => (([], false), [])

def OkxV5.request_run (events : List RespEvent) : (List String × Bool) × List ℕ :=
  OkxV5.request_go 1 events

-- core/exchange.py's _request performs exactly one HTTP attempt: the
-- response's (data, ok) is returned directly (ok = status 200 and business
-- code "0"); network errors and unexpected exceptions return ([], false).
-- No status triggers a retry and no back-off is slept.
def OkxCore.request_result : RespEvent → List String × Bool
  | RespEvent.http status _ code data => (data, status == 200 && code == "0")
  | RespEvent.netError => ([], false)
  | RespEvent.exn => ([], false)

def OkxCore.request_run (events : List RespEvent) : (List String × Bool) × List ℕ :=
  match events with
  | [] => (([], false), [])
  | e :: _ => (OkxCore.request_result e, [])

/-- C7 counterexample: the claim quantifies over every call to the exchange
client's request, but core/exchange.py's `_request` performs exactly one
HTTP attempt — on HTTP 429 (even with Retry-After present) it returns the
failure tuple immediately, sleeping no back-off and consuming no further
response; under the same input the v5 client would sleep the 7-second
Retry-After and retry. -/
theorem C7_retry_counterexample :
    OkxCore.request_run [RespEvent.http 429 (some 7) "50011" []] = (([], false), []) ∧
    (OkxV5.request_run [RespEvent.http 429 (some 7) "50011" [],
        RespEvent.http 200 none "0" ["d"]]).2 = [7] := by
  constructor
  · rfl
  · rfl

-- Falling off the three-attempt loop always yields the failure tuple.
theorem request_go_exhausted (events : List RespEvent) (attempt : ℕ) (h : 3 < attempt) :
    OkxV5.request_go attempt events = (([], false), []) := by
  cases events with
  | nil => rfl
  | cons e rest => cases e <;> simp [OkxV5.request_go, h]

/-- C7 amended: the v5 client's `request` retries on HTTP 429/502/503,
sleeping the server's Retry-After when present and 2^attempt seconds
otherwise, for at most 3 attempts, and returns the failure tuple
([], ok=false) — it does not raise — when all three attempts hit retryable
statuses; a non-retryable response on any attempt returns
(data, status == 200 ∧ code == "0") at once.  The core client's `_request`
makes exactly one attempt and returns its (data, ok) with no retry. -/
theorem C7_retry_amended :
    (∀ (s1 s2 s3 : ℕ) (r1 r2 r3 : Option ℕ) (c1 c2 c3 : String)
       (d1 d2 d3 : List String) (rest : List RespEvent),
      retryable s1 → retryable s2 → retryable s3 →
      OkxV5.request_run (RespEvent.http s1 r1 c1 d1 :: RespEvent.http s2 r2 c2 d2 ::
          RespEvent.http s3 r3 c3 d3 :: rest) =
        (([], false), [r1.getD 2, r2.getD 4, r3.getD 8])) ∧
    (∀ (attempt s : ℕ) (r : Option ℕ) (c : String) (d : List String)
       (rest : List RespEvent), attempt ≤ 3 → retryable s →
      OkxV5.request_go attempt (RespEvent.http s r c d :: rest) =
        ((OkxV5.request_go (attempt + 1) rest).1,
          (r.getD (2 ^ attempt)) :: (OkxV5.request_go (attempt + 1) rest).2)) ∧
    (∀ (attempt s : ℕ) (r : Option ℕ) (c : String) (d : List String)
       (rest : List RespEvent), attempt ≤ 3 → ¬ retryable s →
      OkxV5.request_go attempt (RespEvent.http s r c d :: rest) =
        ((d, s == 200 && c == "0"), [])) ∧
    (∀ (e : RespEvent) (rest : List RespEvent),
      OkxCore.request_run (e :: rest) = (OkxCore.request_result e, [])) := by
  refine ⟨?_, ?_, ?_, ?_⟩
  · intro s1 s2 s3 r1 r2 r3 c1 c2 c3 d1 d2 d3 rest h1 h2 h3
    simp [OkxV5.request_run, OkxV5.request_go, h1, h2, h3,
      request_go_exhausted rest 4 (by omega)]
  · intro attempt s r c d rest ha hs
    rw [OkxV5.request_go, if_neg (by omega), if_pos hs]
  · intro attempt s r c d rest ha hs
    rw [OkxV5.request_go, if_neg (by omega), if_neg hs]
  · intro e rest
    rfl

/-- C7 witness: three consecutive retryable responses (429 with
Retry-After 1, then 502 and 503 without) exhaust the v5 retry loop,
sleeping [1, 4, 8] and returning ([], false). -/
theorem C7_retry_amended_witness :
    retryable 429 ∧ retryable 502 ∧ retryable 503 ∧
    OkxV5.request_run [RespEvent.http 429 (some 1) "x" [], RespEvent.http 502 none "x" [],
        RespEvent.http 503 none "x" []] =
      (([], false), [1, 4, 8]) := by
  have h := C7_retry_amended.1 429 502 503 (some 1) none none "x" "x" "x" [] [] [] []
    (Or.inl rfl) (Or.inr (Or.inl rfl)) (Or.inr (Or.inr rfl))
  exact ⟨Or.inl rfl, Or.inr (Or.inl rfl), Or.inr (Or.inr rfl), h⟩

-- ==================================================================
-- Trading orchestrator order diffing, embedded from src/.app/core/bot.py
-- (execute_strategy, cancel_outdated_orders, place_new_orders,
-- place_order, order_exists — lines 125-182)
-- ==================================================================

-- The strategy's signal set: buy and sell price level lists.
structure Signals where
  buy_levels : List ℚ
  sell_levels : List ℚ
deriving DecidableEq, Repr

-- An order as registered with the OrderManager, keyed by its exchange
-- order id (synthetic ℕ ids stand in for the exchange's strings).
structure MOrder where
  oid : ℕ
  ord : Order
deriving DecidableEq, Repr

-- Bot state threaded through one execute_strategy pass: the ledger's
-- orders in insertion order plus the next synthetic exchange order id.
-- Exchange interactions are modeled as succeeding (cancel_order returns
-- True for open orders and place_limit_order returns a fresh id, as the
-- backtest exchange does); the position-ledger side of place_order is
-- covered by C1/C10.
structure BotState where
  orders : List MOrder
  next_id : ℕ
deriving DecidableEq, Repr

-- The cancel condition of cancel_outdated_orders: an active order whose
-- side+price does not appear in the fresh signal set (exact Decimal
-- equality, set membership in the source).
def missesSignals (sig : Signals) (o : Order) : Prop :=
  (o.side = "buy" ∧ o.price ∉ sig.buy_levels) ∨
  (o.side = "sell" ∧ o.price ∉ sig.sell_levels)

instance (sig : Signals) (o : Order) : Decidable (missesSignals sig o) := by
  unfold missesSignals; infer_instance

-- The effect of the cancel phase on one order: close with reason
-- "strategy_change" (default status CANCELED) when flagged, else as is.
def cancelFn (sig : Signals) (m : MOrder) : MOrder :=
  if m.ord.isActiveOrder ∧ missesSignals sig m.ord then
    { m with ord := m.ord.close "strategy_change" OrderStatus.CANCELED }
  else m

def Bot.cancel_outdated_orders (sig : Signals) (orders : List MOrder) : List MOrder :=
  orders.map (cancelFn sig)

-- Bot.order_exists: an active order of the same side within 1e-8 of the
-- price.
def Bot.order_exists (orders : List MOrder) (side : String) (price : ℚ) : Prop :=
  ∃ m ∈ orders, m.ord.isActiveOrder ∧ m.ord.side = side ∧ |m.ord.price - price| < eps

instance (orders : List MOrder) (side : String) (price : ℚ) :
    Decidable (Bot.order_exists orders side price) := by
  unfold Bot.order_exists; infer_instance

-- One step of the place phase: skip a level that already has a matching
-- active order; otherwise place and register a fresh ACTIVE order at
-- exactly that level.
def Bot.place_order_step (side : String) (order_size : ℚ) (st : BotState) (price : ℚ) :
    BotState :=
  if Bot.order_exists st.orders side price then st
  else { orders := st.orders ++ [⟨st.next_id, Order.create side price order_size⟩]
         next_id := st.next_id + 1 }

def Bot.place_side (side : String) (order_size : ℚ) (levels : List ℚ) (st : BotState) :
    BotState :=
  levels.foldl (Bot.place_order_step side order_size) st

-- Bot.place_new_orders: buys first, then sells, each capped at max_orders.
def Bot.place_new_orders (sig : Signals) (max_orders : ℕ) (order_size : ℚ) (st : BotState) :
    BotState :=
  Bot.place_side "sell" order_size (sig.sell_levels.take max_orders)
    (Bot.place_side "buy" order_size (sig.buy_levels.take max_orders) st)

-- Bot.execute_strategy: the cancel phase followed by the place phase.
def Bot.execute_strategy (sig : Signals) (max_orders : ℕ) (order_size : ℚ) (st : BotState) :
    BotState :=
  Bot.place_new_orders sig max_orders order_size
    { st with orders := Bot.cancel_outdated_orders sig st.orders }

-- The orders appended by the place phase of one execute_strategy pass.
def newOrders (sig : Signals) (max_orders : ℕ) (order_size : ℚ) (st : BotState) :
    List MOrder :=
  (Bot.execute_strategy sig max_orders order_size st).orders.drop st.orders.length

theorem eps_pos : (0 : ℚ) < eps := by norm_num [eps]

theorem order_exists_append (orders new : List MOrder) (side : String) (price : ℚ)
    (h : Bot.order_exists orders side price) :
    Bot.order_exists (orders ++ new) side price := by
  obtain ⟨m, hm, hp⟩ := h
  exact ⟨m, List.mem_append_left _ hm, hp⟩

theorem order_exists_append_other (orders new : List MOrder) (side : String) (price : ℚ)
    (h : ¬ Bot.order_exists orders side price) (hside : ∀ m ∈ new, ¬ m.ord.side = side) :
    ¬ Bot.order_exists (orders ++ new) side price := by
  rintro ⟨m, hm, hact, hsd, habs⟩
  rcases List.mem_append.mp hm with hm | hm
  · exact h ⟨m, hm, hact, hsd, habs⟩
  · exact hside m hm hsd

-- The complete characterization of one side's place phase: it only
-- appends; every appended order is ACTIVE at exactly one of the processed
-- levels with the configured size; no order is appended at a price that
-- already had a matching active order when the phase started; afterwards
-- every processed level has a matching active order; and an eps-separated
-- level with no pre-existing match gets exactly one new order.
theorem place_side_spec (side : String) (os : ℚ) (levels : List ℚ) (st : BotState) :
    ∃ new, (Bot.place_side side os levels st).orders = st.orders ++ new ∧
      (∀ m ∈ new, m.ord.side = side ∧ m.ord.status = OrderStatus.ACTIVE ∧
        m.ord.price ∈ levels ∧ m.ord.size = os) ∧
      (∀ l, Bot.order_exists st.orders side l → ∀ m ∈ new, ¬ m.ord.price = l) ∧
      (∀ l ∈ levels, Bot.order_exists (Bot.place_side side os levels st).orders side l) ∧
      (∀ l ∈ levels, ¬ Bot.order_exists st.orders side l →
        (∀ lr ∈ levels, lr ≠ l → eps ≤ |lr - l|) →
        (new.filter fun m => decide (m.ord.price = l)).length = 1) := by
  induction levels generalizing st with
  | nil =>
    refine ⟨[], by simp [Bot.place_side], by simp, by simp, by simp, by simp⟩
  | cons head rest ih =>
    by_cases he : Bot.order_exists st.orders side head
    · have hps : Bot.place_side side os (head :: rest) st = Bot.place_side side os rest st := by
        simp [Bot.place_side, Bot.place_order_step, he]
      obtain ⟨new, h1, h2, h3, h4, h5⟩ := ih st
      refine ⟨new, by rw [hps, h1], ?_, h3, ?_, ?_⟩
      · intro m hm
        obtain ⟨a, b, c, d⟩ := h2 m hm
        exact ⟨a, b, List.mem_cons_of_mem _ c, d⟩
      · intro l hl
        rcases List.mem_cons.mp hl with rfl | hl
        · rw [hps, h1]
          exact order_exists_append _ _ _ _ he
        · rw [hps]
          exact h4 l hl
      · intro l hl hne hsep
        rcases List.mem_cons.mp hl with rfl | hl
        · exact absurd he hne
        · exact h5 l hl hne (fun lr hlr => hsep lr (List.mem_cons_of_mem _ hlr))
    · have hps : Bot.place_side side os (head :: rest) st =
          Bot.place_side side os rest
            { orders := st.orders ++ [⟨st.next_id, Order.create side head os⟩]
              next_id := st.next_id + 1 } := by
        simp [Bot.place_side, Bot.place_order_step, he]
      set x : MOrder := ⟨st.next_id, Order.create side head os⟩ with hxdef
      set st' : BotState := { orders := st.orders ++ [x], next_id := st.next_id + 1 }
        with hst'
      have hex : Bot.order_exists st'.orders side head := by
        refine ⟨x, by simp [hst'], ?_, ?_, ?_⟩
        · simp [hxdef, Order.isActiveOrder, Order.create]
        · simp [hxdef, Order.create]
        · simpa [hxdef, Order.create] using eps_pos
      obtain ⟨new, h1, h2, h3, h4, h5⟩ := ih st'
      refine ⟨x :: new, ?_, ?_, ?_, ?_, ?_⟩
      · rw [hps, h1]
        simp [hst']
      · intro m hm
        rcases List.mem_cons.mp hm with rfl | hm
        · exact ⟨by simp [hxdef, Order.create], by simp [hxdef, Order.create],
            List.mem_cons_self _ _, by simp [hxdef, Order.create]⟩
        · obtain ⟨a, b, c, d⟩ := h2 m hm
          exact ⟨a, b, List.mem_cons_of_mem _ c, d⟩
      · intro l hl m hm
        have hhl : ¬ head = l := fun hh => he (hh ▸ hl)
        rcases List.mem_cons.mp hm with rfl | hm
        · simpa [hxdef, Order.create] using hhl
        · exact h3 l (by rw [hst']; exact order_exists_append _ _ _ _ hl) m hm
      · intro l hl
        rcases List.mem_cons.mp hl with rfl | hl
        · rw [hps, h1]
          exact order_exists_append _ _ _ _ hex
        · rw [hps]
          exact h4 l hl
      · intro l hl hne hsep
        by_cases heq : head = l
        · subst heq
          have hnone := h3 head hex
          have hnil : new.filter (fun m => decide (m.ord.price = head)) = [] := by
            rw [List.filter_eq_nil_iff]
            intro m hm
            simpa using hnone m hm
          simp [List.filter, hxdef, Order.create, hnil]
        · rcases List.mem_cons.mp hl with hl0 | hl
          · exact absurd hl0.symm heq
          · have hnex : ¬ Bot.order_exists st'.orders side l := by
              rintro ⟨m, hm, hact, hsd, habs⟩
              rcases (by simpa [hst'] using hm : m ∈ st.orders ∨ m = x) with hm | hmx
              · exact hne ⟨m, hm, hact, hsd, habs⟩
              · have hsepH := hsep head (List.mem_cons_self _ _) heq
                rw [hmx] at habs
                simp only [hxdef, Order.create] at habs
                exact absurd habs (not_lt.mpr hsepH)
            have hcount := h5 l hl hnex
              (fun lr hlr hne2 => hsep lr (List.mem_cons_of_mem _ hlr) hne2)
            have hx_price : ¬ (x.ord.price = l) := by
              simpa [hxdef, Order.create] using heq
            simp [List.filter, hx_price, hcount]

theorem filter_side_price (new : List MOrder) (side : String) (l : ℚ)
    (h : ∀ m ∈ new, m.ord.side = side) :
    new.filter (fun m => decide (m.ord.side = side ∧ m.ord.price = l)) =
      new.filter (fun m => decide (m.ord.price = l)) := by
  simp only [Bool.decide_and]
  induction new with
  | nil => rfl
  | cons a rest ih =>
    have ha := h a (List.mem_cons_self _ _)
    have hrest := ih (fun m hm => h m (List.mem_cons_of_mem _ hm))
    by_cases hp : a.ord.price = l <;> simp [List.filter, ha, hp, hrest]

theorem filter_side_price_nil (new : List MOrder) (side : String) (l : ℚ)
    (h : ∀ m ∈ new, ¬ m.ord.side = side) :
    new.filter (fun m => decide (m.ord.side = side ∧ m.ord.price = l)) = [] := by
  rw [List.filter_eq_nil_iff]
  intro m hm
  simp [h m hm]

-- One execute_strategy pass decomposed: the cancel phase's image, then
-- the buy-phase orders new1, then the sell-phase orders new2, with the
-- full place_side_spec characterization of each phase.
theorem execute_strategy_decomp (sig : Signals) (mo : ℕ) (os : ℚ) (st : BotState) :
    ∃ new1 new2,
      (Bot.execute_strategy sig mo os st).orders =
        Bot.cancel_outdated_orders sig st.orders ++ (new1 ++ new2) ∧
      newOrders sig mo os st = new1 ++ new2 ∧
      (∀ m ∈ new1, m.ord.side = "buy" ∧ m.ord.status = OrderStatus.ACTIVE ∧
        m.ord.price ∈ sig.buy_levels.take mo ∧ m.ord.size = os) ∧
      (∀ m ∈ new2, m.ord.side = "sell" ∧ m.ord.status = OrderStatus.ACTIVE ∧
        m.ord.price ∈ sig.sell_levels.take mo ∧ m.ord.size = os) ∧
      (∀ l, Bot.order_exists (Bot.cancel_outdated_orders sig st.orders) "buy" l →
        ∀ m ∈ new1, ¬ m.ord.price = l) ∧
      (∀ l, Bot.order_exists (Bot.cancel_outdated_orders sig st.orders ++ new1) "sell" l →
        ∀ m ∈ new2, ¬ m.ord.price = l) ∧
      (∀ l ∈ sig.buy_levels.take mo,
        Bot.order_exists (Bot.cancel_outdated_orders sig st.orders ++ new1) "buy" l) ∧
      (∀ l ∈ sig.sell_levels.take mo,
        Bot.order_exists (Bot.execute_strategy sig mo os st).orders "sell" l) ∧
      (∀ l ∈ sig.buy_levels.take mo,
        ¬ Bot.order_exists (Bot.cancel_outdated_orders sig st.orders) "buy" l →
        (∀ lr ∈ sig.buy_levels.take mo, lr ≠ l → eps ≤ |lr - l|) →
        (new1.filter fun m => decide (m.ord.price = l)).length = 1) ∧
      (∀ l ∈ sig.sell_levels.take mo,
        ¬ Bot.order_exists (Bot.cancel_outdated_orders sig st.orders ++ new1) "sell" l →
        (∀ lr ∈ sig.sell_levels.take mo, lr ≠ l → eps ≤ |lr - l|) →
        (new2.filter fun m => decide (m.ord.price = l)).length = 1) := by
  obtain ⟨new1, hb1, hb2, hb3, hb4, hb5⟩ := place_side_spec "buy" os (sig.buy_levels.take mo)
    { st with orders := Bot.cancel_outdated_orders sig st.orders }
  obtain ⟨new2, hs1, hs2, hs3, hs4, hs5⟩ := place_side_spec "sell" os
    (sig.sell_levels.take mo)
    (Bot.place_side "buy" os (sig.buy_levels.take mo)
      { st with orders := Bot.cancel_outdated_orders sig st.orders })
  dsimp only at hb1 hb3 hb5
  have hfinal : (Bot.execute_strategy sig mo os st).orders =
      Bot.cancel_outdated_orders sig st.orders ++ (new1 ++ new2) := by
    have e1 : (Bot.execute_strategy sig mo os st).orders =
        (Bot.place_side "sell" os (sig.sell_levels.take mo)
          (Bot.place_side "buy" os (sig.buy_levels.take mo)
            { st with orders := Bot.cancel_outdated_orders sig st.orders })).orders := rfl
    rw [e1, hs1]
    rw [hb1]
    simp [List.append_assoc]
  have hnew : newOrders sig mo os st = new1 ++ new2 := by
    rw [newOrders, hfinal,
      show st.orders.length = (Bot.cancel_outdated_orders sig st.orders).length by
        simp [Bot.cancel_outdated_orders]]
    exact List.drop_left _ _
  refine ⟨new1, new2, hfinal, hnew, hb2, hs2, hb3, ?_, ?_, ?_, hb5, ?_⟩
  · intro l hl
    exact hs3 l (by rw [← hb1] at hl; exact hl)
  · intro l hl
    rw [← hb1]
    exact hb4 l hl
  · intro l hl
    rw [hfinal, ← List.append_assoc, ← hb1, ← hs1]
    exact hs4 l hl
  · intro l hl hne hsep
    exact hs5 l hl (by rw [hb1]; exact hne) hsep

-- The claim's concrete scenario: active orders [buy@100, sell@120] and
-- fresh signals {buy: [105], sell: [120]} (order size 0.01, maxOrders 5).
def c4Sig : Signals := { buy_levels := [105], sell_levels := [120] }

def c4St : BotState :=
  { orders := [⟨1, Order.create "buy" 100 (1/100)⟩, ⟨2, Order.create "sell" 120 (1/100)⟩]
    next_id := 3 }

theorem c4_cancel_eval : Bot.cancel_outdated_orders c4Sig c4St.orders =
    [⟨1, (Order.create "buy" 100 (1/100)).close "strategy_change" OrderStatus.CANCELED⟩,
     ⟨2, Order.create "sell" 120 (1/100)⟩] := by
  have d1 : ¬ ((100 : ℚ) = 105) := by norm_num
  simp [Bot.cancel_outdated_orders, cancelFn, missesSignals, Order.isActiveOrder,
    Order.create, c4Sig, c4St, d1]

theorem c4_no_buy105 :
    ¬ Bot.order_exists (Bot.cancel_outdated_orders c4Sig c4St.orders) "buy" 105 := by
  rw [c4_cancel_eval]
  rintro ⟨m, hm, hact, hside, habs⟩
  simp only [List.mem_cons, List.not_mem_nil, or_false] at hm
  rcases hm with rfl | rfl
  · simp [Order.isActiveOrder, Order.close] at hact
  · simp [Order.create] at hside

theorem c4_sell120_exists :
    Bot.order_exists (Bot.cancel_outdated_orders c4Sig c4St.orders ++
      [⟨3, Order.create "buy" 105 (1/100)⟩]) "sell" 120 := by
  refine ⟨⟨2, Order.create "sell" 120 (1/100)⟩, ?_, ?_, ?_, ?_⟩
  · rw [c4_cancel_eval]; simp
  · simp [Order.isActiveOrder, Order.create]
  · simp [Order.create]
  · simpa [Order.create] using eps_pos

theorem c4_concrete : Bot.execute_strategy c4Sig 5 (1/100) c4St =
    { orders := [⟨1, (Order.create "buy" 100 (1/100)).close "strategy_change"
                     OrderStatus.CANCELED⟩,
                 ⟨2, Order.create "sell" 120 (1/100)⟩,
                 ⟨3, Order.create "buy" 105 (1/100)⟩]
      next_id := 4 } := by
  have e : Bot.execute_strategy c4Sig 5 (1/100) c4St =
      Bot.place_order_step "sell" (1/100)
        (Bot.place_order_step "buy" (1/100)
          { c4St with orders := Bot.cancel_outdated_orders c4Sig c4St.orders } 105) 120 := rfl
  have h1 : Bot.place_order_step "buy" (1/100)
      { c4St with orders := Bot.cancel_outdated_orders c4Sig c4St.orders } 105 =
      { orders := Bot.cancel_outdated_orders c4Sig c4St.orders ++
          [⟨3, Order.create "buy" 105 (1/100)⟩]
        next_id := 4 } := by
    rw [Bot.place_order_step, if_neg (by simpa using c4_no_buy105)]
    simp [c4St]
  have h2 : Bot.place_order_step "sell" (1/100)
      { orders := Bot.cancel_outdated_orders c4Sig c4St.orders ++
          [⟨3, Order.create "buy" 105 (1/100)⟩]
        next_id := 4 } 120 =
      { orders := Bot.cancel_outdated_orders c4Sig c4St.orders ++
          [⟨3, Order.create "buy" 105 (1/100)⟩]
        next_id := 4 } := by
    rw [Bot.place_order_step, if_pos (by simpa using c4_sell120_exists)]
  rw [e, h1, h2, c4_cancel_eval]
  rfl

/-- C4: one orchestrator iteration against a fresh signal set.  (i) The
resulting ledger is the cancel phase's image of the original orders
followed by the newly placed orders; (ii) the cancel phase closes, with
reason "strategy_change" and status CANCELED, exactly the active orders
whose side+price does not appear in the signal set (exact price equality,
as in the source), leaving every other order untouched; (iii) every new
order is ACTIVE with the configured size at a signaled level (within the
maxOrders cap) of its side; (iv)/(v) a side+price that still has a
matching active order after the cancel phase (tolerance 1e-8) gets no new
order; (vi)/(vii) every signaled level within the cap has a matching
active order afterwards; (viii)/(ix) an eps-separated signaled level with
no match after the cancel phase gets exactly one new order; and (x) the
concrete instance: with active [buy@100, sell@120] and signals
{buy: [105], sell: [120]}, exactly buy@100 is canceled with
"strategy_change", sell@120 is untouched, and exactly one new buy@105 is
placed. -/
theorem C4_execute_strategy :
    (∀ (sig : Signals) (mo : ℕ) (os : ℚ) (st : BotState),
      (Bot.execute_strategy sig mo os st).orders =
        st.orders.map (cancelFn sig) ++ newOrders sig mo os st) ∧
    (∀ (sig : Signals) (m : MOrder),
      (m.ord.isActiveOrder ∧ missesSignals sig m.ord →
        cancelFn sig m =
          { m with ord := m.ord.close "strategy_change" OrderStatus.CANCELED }) ∧
      (¬ (m.ord.isActiveOrder ∧ missesSignals sig m.ord) → cancelFn sig m = m)) ∧
    (∀ (sig : Signals) (mo : ℕ) (os : ℚ) (st : BotState),
      ∀ m ∈ newOrders sig mo os st,
      m.ord.status = OrderStatus.ACTIVE ∧ m.ord.size = os ∧
      ((m.ord.side = "buy" ∧ m.ord.price ∈ sig.buy_levels.take mo) ∨
       (m.ord.side = "sell" ∧ m.ord.price ∈ sig.sell_levels.take mo))) ∧
    (∀ (sig : Signals) (mo : ℕ) (os : ℚ) (st : BotState) (l : ℚ),
      Bot.order_exists (Bot.cancel_outdated_orders sig st.orders) "buy" l →
      ∀ m ∈ newOrders sig mo os st, ¬ (m.ord.side = "buy" ∧ m.ord.price = l)) ∧
    (∀ (sig : Signals) (mo : ℕ) (os : ℚ) (st : BotState) (l : ℚ),
      Bot.order_exists (Bot.cancel_outdated_orders sig st.orders) "sell" l →
      ∀ m ∈ newOrders sig mo os st, ¬ (m.ord.side = "sell" ∧ m.ord.price = l)) ∧
    (∀ (sig : Signals) (mo : ℕ) (os : ℚ) (st : BotState),
      ∀ l ∈ sig.buy_levels.take mo,
      Bot.order_exists (Bot.execute_strategy sig mo os st).orders "buy" l) ∧
    (∀ (sig : Signals) (mo : ℕ) (os : ℚ) (st : BotState),
      ∀ l ∈ sig.sell_levels.take mo,
      Bot.order_exists (Bot.execute_strategy sig mo os st).orders "sell" l) ∧
    (∀ (sig : Signals) (mo : ℕ) (os : ℚ) (st : BotState),
      ∀ l ∈ sig.buy_levels.take mo,
      ¬ Bot.order_exists (Bot.cancel_outdated_orders sig st.orders) "buy" l →
      (∀ lr ∈ sig.buy_levels.take mo, lr ≠ l → eps ≤ |lr - l|) →
      ((newOrders sig mo os st).filter fun m =>
        decide (m.ord.side = "buy" ∧ m.ord.price = l)).length = 1) ∧
    (∀ (sig : Signals) (mo : ℕ) (os : ℚ) (st : BotState),
      ∀ l ∈ sig.sell_levels.take mo,
      ¬ Bot.order_exists (Bot.cancel_outdated_orders sig st.orders) "sell" l →
      (∀ lr ∈ sig.sell_levels.take mo, lr ≠ l → eps ≤ |lr - l|) →
      ((newOrders sig mo os st).filter fun m =>
        decide (m.ord.side = "sell" ∧ m.ord.price = l)).length = 1) ∧
    (Bot.execute_strategy c4Sig 5 (1/100) c4St =
      { orders := [⟨1, (Order.create "buy" 100 (1/100)).close "strategy_change"
                       OrderStatus.CANCELED⟩,
                   ⟨2, Order.create "sell" 120 (1/100)⟩,
                   ⟨3, Order.create "buy" 105 (1/100)⟩]
        next_id := 4 }) := by
  refine ⟨?_, ?_, ?_, ?_, ?_, ?_, ?_, ?_, ?_, c4_concrete⟩
  · intro sig mo os st
    obtain ⟨new1, new2, hfinal, hnew, _⟩ := execute_strategy_decomp sig mo os st
    rw [hfinal, hnew]
    rfl
  · intro sig m
    constructor
    · intro h
      simp [cancelFn, h]
    · intro h
      simp [cancelFn, h]
  · intro sig mo os st m hm
    obtain ⟨new1, new2, hfinal, hnew, hb2, hs2, _⟩ := execute_strategy_decomp sig mo os st
    rw [hnew] at hm
    rcases List.mem_append.mp hm with hm | hm
    · obtain ⟨a, b, c, d⟩ := hb2 m hm
      exact ⟨b, d, Or.inl ⟨a, c⟩⟩
    · obtain ⟨a, b, c, d⟩ := hs2 m hm
      exact ⟨b, d, Or.inr ⟨a, c⟩⟩
  · intro sig mo os st l hl m hm
    obtain ⟨new1, new2, hfinal, hnew, hb2, hs2, hb3, hs3, _⟩ :=
      execute_strategy_decomp sig mo os st
    rw [hnew] at hm
    rintro ⟨hside, hprice⟩
    rcases List.mem_append.mp hm with hm | hm
    · exact hb3 l hl m hm hprice
    · have := (hs2 m hm).1
      rw [hside] at this
      exact absurd this (by decide)
  · intro sig mo os st l hl m hm
    obtain ⟨new1, new2, hfinal, hnew, hb2, hs2, hb3, hs3, _⟩ :=
      execute_strategy_decomp sig mo os st
    rw [hnew] at hm
    rintro ⟨hside, hprice⟩
    rcases List.mem_append.mp hm with hm | hm
    · have := (hb2 m hm).1
      rw [hside] at this
      exact absurd this (by decide)
    · exact hs3 l (order_exists_append _ _ _ _ hl) m hm hprice
  · intro sig mo os st l hl
    obtain ⟨new1, new2, hfinal, hnew, hb2, hs2, hb3, hs3, hb4, hs4, _⟩ :=
      execute_strategy_decomp sig mo os st
    rw [hfinal, ← List.append_assoc]
    exact order_exists_append _ _ _ _ (hb4 l hl)
  · intro sig mo os st l hl
    obtain ⟨new1, new2, hfinal, hnew, hb2, hs2, hb3, hs3, hb4, hs4, _⟩ :=
      execute_strategy_decomp sig mo os st
    exact hs4 l hl
  · intro sig mo os st l hl hne hsep
    obtain ⟨new1, new2, hfinal, hnew, hb2, hs2, hb3, hs3, hb4, hs4, hb5, hs5⟩ :=
      execute_strategy_decomp sig mo os st
    rw [hnew, List.filter_append, List.length_append,
      filter_side_price new1 "buy" l (fun m hm => (hb2 m hm).1),
      filter_side_price_nil new2 "buy" l
        (fun m hm => by rw [(hs2 m hm).1]; decide),
      hb5 l hl hne hsep]
    rfl
  · intro sig mo os st l hl hne hsep
    obtain ⟨new1, new2, hfinal, hnew, hb2, hs2, hb3, hs3, hb4, hs4, hb5, hs5⟩ :=
      execute_strategy_decomp sig mo os st
    have hne2 : ¬ Bot.order_exists
        (Bot.cancel_outdated_orders sig st.orders ++ new1) "sell" l :=
      order_exists_append_other _ _ _ _ hne
        (fun m hm => by rw [(hb2 m hm).1]; decide)
    rw [hnew, List.filter_append, List.length_append,
      filter_side_price new2 "sell" l (fun m hm => (hs2 m hm).1),
      filter_side_price_nil new1 "sell" l
        (fun m hm => by rw [(hb2 m hm).1]; decide),
      hs5 l hl hne2 hsep]
    rfl

/-- C4 witness: the orchestrator-iteration theorem applied at the claim's
concrete scenario — 105 is a signaled buy level with no matching active
order after the cancel phase, so after the iteration an active buy order
within 1e-8 of 105 exists and exactly one new buy order was placed at
105. -/
theorem C4_execute_strategy_witness :
    ((105 : ℚ) ∈ c4Sig.buy_levels.take 5) ∧
    (¬ Bot.order_exists (Bot.cancel_outdated_orders c4Sig c4St.orders) "buy" 105) ∧
    Bot.order_exists (Bot.execute_strategy c4Sig 5 (1/100) c4St).orders "buy" 105 ∧
    ((newOrders c4Sig 5 (1/100) c4St).filter fun m =>
      decide (m.ord.side = "buy" ∧ m.ord.price = 105)).length = 1 := by
  have h105 : (105 : ℚ) ∈ c4Sig.buy_levels.take 5 := by simp [c4Sig]
  have hsep : ∀ lr ∈ c4Sig.buy_levels.take 5, lr ≠ (105 : ℚ) → eps ≤ |lr - 105| := by
    intro lr hlr hne
    simp [c4Sig] at hlr
    exact absurd hlr hne
  refine ⟨h105, c4_no_buy105, ?_, ?_⟩
  · exact C4_execute_strategy.2.2.2.2.2.1 c4Sig 5 (1/100) c4St 105 h105
  · exact C4_execute_strategy.2.2.2.2.2.2.2.1 c4Sig 5 (1/100) c4St 105 h105
      c4_no_buy105 hsep
